import Mathlib

/-!
Verification development for the DynamoDB change-data-capture pipeline of the
serverless-rust-demo repository.  The Rust sources embedded here are
src/entrypoints/lambda/dynamodb/model.rs, src/entrypoints/lambda/dynamodb/mod.rs
and src/store/dynamodb.rs.  Rust HashMap values are modelled as association
lists (lookup returns the first binding), Rust f64 values are modelled as
rationals carrying the exact value denoted by the decimal literals involved,
and fallible Rust code returns Option or Except.
-/

namespace SRDemo

set_option maxRecDepth 8192

/-- Association list lookup, modelling HashMap::get with string keys.
The maps produced by deserialization have unique keys, so first-match
lookup agrees with hash-map lookup. -/
def lookupKey {α : Type} : List (String × α) → String → Option α
  | [], _ => none
  | (k, v) :: rest, key => if k = key then some v else lookupKey rest key

/-- ASCII decimal digit recognizer used by the model of Rust float parsing:
returns the value of the digit when the character is one of 0-9. -/
def digit? (c : Char) : Option Nat :=
  if ('0' ≤ c ∧ c ≤ '9') then some (c.toNat - Char.toNat '0') else none

/-- Boolean form of the digit test. -/
def isDigitChar (c : Char) : Bool := (digit? c).isSome

/-- Accumulating base-10 read of a digit string (non-digit characters count 0;
callers only apply this to all-digit strings). -/
def digitsAcc : Nat → List Char → Nat
  | acc, [] => acc
  | acc, c :: cs => digitsAcc (acc * 10 + (digit? c).getD 0) cs

/-- Exponent part of the Rust float grammar: an optional sign followed by a
non-empty run of digits. -/
def parseExpPart (cs : List Char) : Option Int :=
  match cs with
  | [] => none
  | c :: rest =>
    let sd := if c = '+' then (false, rest) else if c = '-' then (true, rest) else (false, c :: rest)
    if sd.2.isEmpty then none
    else if sd.2.all isDigitChar then
      some ((if sd.1 then -1 else 1) * (digitsAcc 0 sd.2 : Int))
    else none

/-- Model of an f64 value as produced by Rust float parsing and carried in
the product price: a finite value kept exactly as a rational, an infinity
of either sign, or NaN.  Deviation, irrelevant to the claims settled here:
finite values are exact rationals instead of being rounded to 53-bit
precision, and the sign of NaN is not tracked (it is unobservable in this
pipeline). -/
inductive RustFloat : Type
  | finite (q : ℚ)
  | posInf
  | negInf
  | nan
deriving DecidableEq

/-- Negation of a float value, applied for a parsed leading minus sign. -/
def RustFloat.neg : RustFloat → RustFloat
  | RustFloat.finite q => RustFloat.finite (-q)
  | RustFloat.posInf => RustFloat.negInf
  | RustFloat.negInf => RustFloat.posInf
  | RustFloat.nan => RustFloat.nan

/-- Smallest positive magnitude that a decimal literal rounds to infinity
when parsed into a 64-bit float: the midpoint between the largest finite
double (2^1024 - 2^971) and 2^1024; round-half-even sends the midpoint
up.  The bound is an integer, so range tests stay in integer arithmetic. -/
def ovfBound : Int := ((2 ^ 1024 - 2 ^ 970 : Nat) : Int)

/-- The rational lies strictly inside the finite double range, written on
the numerator and denominator to stay in integer arithmetic. -/
def InF64Range (q : ℚ) : Prop :=
  -(ovfBound * (q.den : Int)) < q.num ∧ q.num < ovfBound * (q.den : Int)

instance (q : ℚ) : Decidable (InF64Range q) := by unfold InF64Range; infer_instance

/-- Conversion of an exactly computed parsed value into the float model:
magnitudes at or beyond the overflow midpoint become the matching
infinity, exactly as Rust float parsing overflows; everything else stays
finite and exact. -/
def rustFloatOfRat (q : ℚ) : RustFloat :=
  if ovfBound * (q.den : Int) ≤ q.num then RustFloat.posInf
  else if q.num ≤ -(ovfBound * (q.den : Int)) then RustFloat.negInf
  else RustFloat.finite q

/-- Exact multiplication of the mantissa by ten to the exponent, written
with one mkRat so that the value stays kernel-computable. -/
def applyExp (m : ℚ) (e : Int) : ℚ :=
  if 0 ≤ e then mkRat (m.num * ((10 ^ e.toNat : Nat) : Int)) m.den
  else mkRat m.num (m.den * 10 ^ (-e).toNat)

/-- Case-insensitive keyword match used by Rust float parsing for the
non-finite spellings: each pattern entry lists the lowercase and uppercase
form of one letter, and the whole input must be consumed. -/
def matchesKeyword : List (Char × Char) → List Char → Bool
  | [], [] => true
  | (lo, up) :: ps, c :: cs => (c == lo || c == up) && matchesKeyword ps cs
  | _, _ => false

/-- Non-finite spellings of the Rust float grammar after the optional
sign: inf, infinity and nan, case-insensitive; these parse successfully to
non-finite values, they are not rejected. -/
def parseNonFinite (cs : List Char) : Option RustFloat :=
  if matchesKeyword [('i', 'I'), ('n', 'N'), ('f', 'F')] cs then some RustFloat.posInf
  else if matchesKeyword
      [('i', 'I'), ('n', 'N'), ('f', 'F'), ('i', 'I'), ('n', 'N'), ('i', 'I'), ('t', 'T'),
       ('y', 'Y')] cs then
    some RustFloat.posInf
  else if matchesKeyword [('n', 'N'), ('a', 'A'), ('n', 'N')] cs then some RustFloat.nan
  else none

/-- Fractional digit run of the remainder after the integer digits: the
digits after a leading decimal point, empty otherwise. -/
def fracPart : List Char → List Char
  | c :: r => if c = '.' then r.takeWhile isDigitChar else []
  | [] => []

/-- Remainder after the optional point and fractional digits. -/
def restAfterFrac : List Char → List Char
  | c :: r => if c = '.' then r.dropWhile isDigitChar else c :: r
  | [] => []

/-- Application of the optional exponent part: the remainder must be empty
or an exponent marker followed by a valid exponent. -/
def parseExpApply : List Char → ℚ → Option ℚ
  | [], mant => some mant
  | c :: r, mant =>
    if c = 'e' ∨ c = 'E' then (parseExpPart r).map (fun e => applyExp mant e)
    else none

/-- Unsigned part of the Rust float grammar: digits, an optional point with
further digits (at least one digit on one of the two sides), and an optional
exponent.  The value is computed exactly as a rational. -/
def parseUnsigned (cs : List Char) : Option ℚ :=
  let ip := cs.takeWhile isDigitChar
  let r1 := cs.dropWhile isDigitChar
  let fp := fracPart r1
  if ip.length + fp.length = 0 then none
  else
    parseExpApply (restAfterFrac r1)
      (mkRat ((digitsAcc 0 ip * 10 ^ fp.length + digitsAcc 0 fp : Nat) : Int) (10 ^ fp.length))

/-- Unsigned float value of the Rust grammar: one of the non-finite
spellings, or the finite number grammar with its exact value pushed to
infinity at the overflow midpoint, as Rust parsing does. -/
def parseUnsignedF (cs : List Char) : Option RustFloat :=
  match parseNonFinite cs with
  | some f => some f
  | none => (parseUnsigned cs).map rustFloatOfRat

/-- Model of Rust str::parse::<f64>: an optional sign followed by either a
non-finite spelling (inf, infinity, nan, case-insensitive) or a decimal
mantissa with optional exponent.  Non-finite spellings and overflowing
magnitudes succeed with the corresponding non-finite value; within the
finite range the value is kept exactly as a rational instead of being
rounded to 53-bit precision (see RustFloat). -/
def parseF64 (s : String) : Option RustFloat :=
  match s.data with
  | [] => none
  | c :: rest =>
    if c = '+' then parseUnsignedF rest
    else if c = '-' then (parseUnsignedF rest).map RustFloat.neg
    else parseUnsignedF (c :: rest)

/-- Character of a single decimal digit. -/
def digitChar (d : Nat) : Char :=
  if d = 0 then '0' else if d = 1 then '1' else if d = 2 then '2' else if d = 3 then '3'
  else if d = 4 then '4' else if d = 5 then '5' else if d = 6 then '6' else if d = 7 then '7'
  else if d = 8 then '8' else if d = 9 then '9' else '*'

/-- Base-10 digit string of a natural number, most significant digit first. -/
def natToDigits (m : Nat) : List Char :=
  if m = 0 then ['0'] else ((Nat.digits 10 m).reverse.map digitChar)

/-- Digit string of m zero-padded on the left to k characters. -/
def padDigits (k m : Nat) : List Char :=
  List.replicate (k - (natToDigits m).length) '0' ++ natToDigits m

/-- A rational has a finite decimal expansion exactly when its reduced
denominator divides a power of ten; the denominator itself always bounds the
number of decimal places needed.  Every finite f64 value is a dyadic rational
and therefore satisfies this predicate, so it models the finiteness side
condition on prices. -/
def DecimalExact (q : ℚ) : Prop := q.den ∣ 10 ^ q.den

instance (q : ℚ) : Decidable (DecimalExact q) := by unfold DecimalExact; infer_instance

/-- Model of the Rust Display formatting of a finite f64 value.  Rust
prints the shortest decimal string that parses back to the same float; the
model prints the exact decimal expansion with q.den decimal places, which
parses back to the same rational, preserving the round-trip contract
exactly.  The fallback branch is unreachable for values denoted by finite
floats. -/
def fmtDec (q : ℚ) : String :=
  if q.den ∣ 10 ^ q.den then
    String.mk ((if q.num < 0 then ['-'] else [])
      ++ natToDigits (q.num.natAbs * (10 ^ q.den / q.den) / 10 ^ q.den)
      ++ '.' :: padDigits q.den (q.num.natAbs * (10 ^ q.den / q.den) % 10 ^ q.den))
  else
    String.mk (natToDigits q.num.natAbs)

/-- Display formatting on the float model, as the store encoder applies it:
finite values print their decimal expansion, the non-finite values print
the spellings Rust Display uses. -/
def fmtF64 : RustFloat → String
  | RustFloat.finite q => fmtDec q
  | RustFloat.posInf => "inf"
  | RustFloat.negInf => "-inf"
  | RustFloat.nan => "NaN"

/-- The price models a finite f64 value with a finite decimal expansion:
a finite rational strictly inside the double range whose reduced
denominator divides a power of ten.  Every finite f64 value satisfies both
conditions (it is a dyadic rational of magnitude below the overflow
bound), so this is the model-level reading of "finite price". -/
def FiniteDecimalPrice : RustFloat → Prop
  | RustFloat.finite q => DecimalExact q ∧ InF64Range q
  | _ => False

instance (f : RustFloat) : Decidable (FiniteDecimalPrice f) := by
  unfold FiniteDecimalPrice
  cases f <;> infer_instance

/-- AttributeValue from model.rs: the closed tagged union of DynamoDB wire
values (blob variants omitted, as in the source).  The Rust HashMap in the M
variant is modelled as an association list. -/
inductive AttributeValue : Type
  | Bool (b : Bool)
  | L (l : List AttributeValue)
  | M (m : List (String × AttributeValue))
  | N (n : String)
  | Ns (ns : List String)
  | Null (null : Bool)
  | S (s : String)
  | Ss (ss : List String)

/-- Abbreviation for the builtin booleans, needed inside the AttributeValue
namespace where the Bool constructor shadows the builtin name. -/
abbrev Boolean := Bool

/-- Accessor as_bool from model.rs. -/
def AttributeValue.as_bool : AttributeValue → Option Boolean
  | AttributeValue.Bool b => some b
  | _ => none

/-- Accessor as_l from model.rs. -/
def AttributeValue.as_l : AttributeValue → Option (List AttributeValue)
  | AttributeValue.L l => some l
  | _ => none

/-- Accessor as_m from model.rs. -/
def AttributeValue.as_m : AttributeValue → Option (List (String × AttributeValue))
  | AttributeValue.M m => some m
  | _ => none

/-- Accessor as_n from model.rs: n.parse::<f64>().ok() on the N payload,
None on any other tag. -/
def AttributeValue.as_n : AttributeValue → Option RustFloat
  | AttributeValue.N n => parseF64 n
  | _ => none

/-- Accessor as_ns from model.rs: keeps the parseable elements of an Ns
payload and returns the empty default on any other tag. -/
def AttributeValue.as_ns : AttributeValue → List RustFloat
  | AttributeValue.Ns ns => ns.filterMap parseF64
  | _ => []

/-- Accessor as_null from model.rs. -/
def AttributeValue.as_null : AttributeValue → Option Boolean
  | AttributeValue.Null null => some null
  | _ => none

/-- Accessor as_s from model.rs. -/
def AttributeValue.as_s : AttributeValue → Option String
  | AttributeValue.S s => some s
  | _ => none

/-- Accessor as_ss from model.rs: returns the Ss payload, or the empty
default on any other tag. -/
def AttributeValue.as_ss : AttributeValue → List String
  | AttributeValue.Ss ss => ss
  | _ => []

/-- Error type of the crate as used by the embedded sources: model.rs raises
InternalError with static messages and mod.rs raises ClientError; the exact
enum lives in the crate root outside the embedded files, so only the two
variants those files construct are modelled, each carrying its message. -/
inductive Error : Type
  | InternalError (msg : String)
  | ClientError (msg : String)
deriving DecidableEq

/-- Product domain record (crate model): identifier, display name and price;
the f64 price is carried in the RustFloat model. -/
structure Product : Type where
  id : String
  name : String
  price : RustFloat
deriving DecidableEq

/-- Event domain union (crate model): Created, Updated and Deleted. -/
inductive Event : Type
  | Created (product : Product)
  | Updated (old : Product) (new : Product)
  | Deleted (product : Product)
deriving DecidableEq

deriving instance DecidableEq for Except

/-- Model of Option::ok_or followed by the question-mark operator: the
contained value, or the given error. -/
def okOrErr {β : Type} : Option β → Error → Except Error β
  | some x, _ => Except.ok x
  | none, e => Except.error e

/-- TryFrom a DynamoDB item map for Product, from model.rs: each field is
read from its capitalized key first, then from its lowercase key, and the
value must carry the expected tag (string for id and name, number for
price); the fields are evaluated in the order id, name, price. -/
def Product.tryFromImage (value : List (String × AttributeValue)) : Except Error Product := do
  let foundId ← (match lookupKey value "Id" with
    | some v => Except.ok v
    | none => okOrErr (lookupKey value "id") (Error.InternalError "Missing id in lambda"))
  let id ← okOrErr foundId.as_s (Error.InternalError "id is not a string")
  let foundName ← (match lookupKey value "Name" with
    | some v => Except.ok v
    | none => okOrErr (lookupKey value "name") (Error.InternalError "Missing name in lambda"))
  let name ← okOrErr foundName.as_s (Error.InternalError "name is not a string")
  let foundPrice ← (match lookupKey value "Price" with
    | some v => Except.ok v
    | none => okOrErr (lookupKey value "price") (Error.InternalError "Missing price in lambda"))
  let price ← okOrErr foundPrice.as_n (Error.InternalError "price is not a number")
  Except.ok { id := id, name := name, price := price }

/-- DynamoDBStreamRecord from model.rs.  The serde default attribute on
Keys, NewImage, OldImage and ApproximateCreationDateTime means a missing
field deserializes to the empty map or None; the remaining fields are
required. -/
structure DynamoDBStreamRecord : Type where
  approximate_creation_date_time : Option ℚ
  keys : List (String × AttributeValue)
  new_image : List (String × AttributeValue)
  old_image : List (String × AttributeValue)
  sequence_number : String
  size_bytes : ℚ
  stream_view_type : String

/-- DynamoDBRecord from model.rs; every field is required. -/
structure DynamoDBRecord : Type where
  aws_region : String
  dynamodb : DynamoDBStreamRecord
  event_id : String
  event_name : String
  event_source : String
  event_source_arn : String
  event_version : String

/-- DynamoDBEvent from model.rs: the Records array. -/
structure DynamoDBEvent : Type where
  records : List DynamoDBRecord

/-- TryFrom a DynamoDBRecord for Event, from model.rs: a Rust match on the
event name string, modelled as the equivalent sequence of equality tests.
INSERT projects the new image into Created, MODIFY projects old then new
into Updated, REMOVE projects the old image into Deleted, and any other
name is the Unknown event type error. -/
def Event.tryFromRecord (value : DynamoDBRecord) : Except Error Event :=
  if value.event_name = "INSERT" then
    (Product.tryFromImage value.dynamodb.new_image).bind fun product =>
      Except.ok (Event.Created product)
  else if value.event_name = "MODIFY" then
    (Product.tryFromImage value.dynamodb.old_image).bind fun old =>
      (Product.tryFromImage value.dynamodb.new_image).bind fun new =>
        Except.ok (Event.Updated old new)
  else if value.event_name = "REMOVE" then
    (Product.tryFromImage value.dynamodb.old_image).bind fun product =>
      Except.ok (Event.Deleted product)
  else Except.error (Error.InternalError "Unknown event type")

/-- Collection of per-record results into a single Result, modelling
collect::<Result<Vec<Event>, Error>> in parse_ddb_events: the first error
aborts and nothing is returned besides it.  The rayon parallel iterator
used in the source is index-preserving and short-circuiting, so its
observable behavior is this sequential denotation. -/
def collectResults : List (Except Error Event) → Except Error (List Event)
  | [] => Except.ok []
  | Except.error e :: _ => Except.error e
  | Except.ok v :: rest => (collectResults rest).map (fun vs => v :: vs)

/-- parse_ddb_events from mod.rs: classify every record and collect the
results all-or-nothing. -/
def parse_ddb_events (ddb_event : DynamoDBEvent) : Except Error (List Event) :=
  collectResults (ddb_event.records.map (fun r => Event.tryFromRecord r))

/-- ValueType from store/dynamodb.rs. -/
inductive ValueType : Type
  | N
  | S

/-- Accessor as_n of the AWS SDK AttributeValue used by the store: returns
the raw N string when the tag matches, an error otherwise.  The SDK error
payload is converted outside the embedded files; the conversion is modelled
as an InternalError with a fixed message, on which no theorem depends. -/
def sdkAsN : AttributeValue → Except Error String
  | AttributeValue.N n => Except.ok n
  | _ => Except.error (Error.InternalError "attribute value type mismatch")

/-- Accessor as_s of the AWS SDK AttributeValue used by the store; see
sdkAsN for the modelling of the mismatch error. -/
def sdkAsS : AttributeValue → Except Error String
  | AttributeValue.S s => Except.ok s
  | _ => Except.error (Error.InternalError "attribute value type mismatch")

/-- get_key from store/dynamodb.rs: look up exactly the given key and apply
the accessor for the expected type. -/
def get_key (key : String) (t : ValueType) (item : List (String × AttributeValue)) :
    Except Error String :=
  match lookupKey item key with
  | none => Except.error (Error.InternalError ("Missing '" ++ key ++ "'"))
  | some v =>
    match t with
    | ValueType.N => sdkAsN v
    | ValueType.S => sdkAsS v

/-- from_dynamodb from store/dynamodb.rs: read id, name and price under
their lowercase keys only, in that order, then parse the price string.  The
conversion of the std parse error is outside the embedded files and is
modelled as an InternalError with the std message; no theorem depends on
it. -/
def Product.from_dynamodb (value : List (String × AttributeValue)) : Except Error Product := do
  let id ← get_key "id" ValueType.S value
  let name ← get_key "name" ValueType.S value
  let priceStr ← get_key "price" ValueType.N value
  let price ← match parseF64 priceStr with
    | some q => Except.ok q
    | none => Except.error (Error.InternalError "invalid float literal")
  Except.ok { id := id, name := name, price := price }

/-- to_dynamodb from store/dynamodb.rs: encode the product under the
lowercase keys id, name and price, the price formatted by Display. -/
def Product.to_dynamodb (p : Product) : List (String × AttributeValue) :=
  [("id", AttributeValue.S p.id),
   ("name", AttributeValue.S p.name),
   ("price", AttributeValue.N (fmtF64 p.price))]

/-- Spec model of the field resolution policy of section 4.2: the canonical
capitalized key is consulted first and the lowercase alternate key only
when the canonical one is absent.  This definition follows the words of the
spec and is compared with the code-derived projection. -/
def resolveField (value : List (String × AttributeValue)) (canonical alternate : String) :
    Option AttributeValue :=
  match lookupKey value canonical with
  | some v => some v
  | none => lookupKey value alternate

/-- Spec model of the projector of section 4.2, built from resolveField:
per field, resolve canonical-then-alternate, fail naming the field when
both keys are absent, then apply the exact-tag accessor.  Compared with the
code-derived Product.tryFromImage in the resolution-policy claim. -/
def projectSpecModel (value : List (String × AttributeValue)) : Except Error Product := do
  let foundId ← okOrErr (resolveField value "Id" "id") (Error.InternalError "Missing id in lambda")
  let id ← okOrErr foundId.as_s (Error.InternalError "id is not a string")
  let foundName ← okOrErr (resolveField value "Name" "name")
    (Error.InternalError "Missing name in lambda")
  let name ← okOrErr foundName.as_s (Error.InternalError "name is not a string")
  let foundPrice ← okOrErr (resolveField value "Price" "price")
    (Error.InternalError "Missing price in lambda")
  let price ← okOrErr foundPrice.as_n (Error.InternalError "price is not a number")
  Except.ok { id := id, name := name, price := price }

/-- Generic JSON value as delivered by serde_json, numbers kept exactly as
rationals and objects as association lists in input order. -/
inductive Json : Type
  | null
  | bool (b : Bool)
  | num (q : ℚ)
  | str (s : String)
  | arr (elems : List Json)
  | obj (fields : List (String × Json))

/-- Serde decode of an array of strings (Ns and Ss payloads). -/
def decodeStringListF : List Json → Except String (List String)
  | [] => Except.ok []
  | Json.str s :: xs => (decodeStringListF xs).map (fun rest => s :: rest)
  | _ :: _ => Except.error "invalid type: expected a string"

/-- Step budget for the attribute decoder: serde_json enforces a recursion
limit while building values, so no value it hands over comes close to this
many nodes; the exhaustion branches below are unreachable for every input
appearing in a theorem of this file. -/
def serdeFuel : Nat := 1000000

mutual

/-- Serde decode of one externally tagged AttributeValue: a single-key
object whose key is the exact variant name and whose payload matches the
variant shape.  The fuel argument bounds the recursion structurally; see
serdeFuel. -/
def decodeAttrF : Nat → Json → Except String AttributeValue
  | 0, _ => Except.error "recursion depth exceeded"
  | Nat.succ n, Json.obj [(tag, payload)] =>
    if tag = "Bool" then
      match payload with
      | Json.bool b => Except.ok (AttributeValue.Bool b)
      | _ => Except.error "invalid type for variant Bool"
    else if tag = "L" then
      match payload with
      | Json.arr xs => (decodeAttrListF n xs).map (fun l => AttributeValue.L l)
      | _ => Except.error "invalid type for variant L"
    else if tag = "M" then
      match payload with
      | Json.obj fs => (decodeAttrFieldsF n fs).map (fun m => AttributeValue.M m)
      | _ => Except.error "invalid type for variant M"
    else if tag = "N" then
      match payload with
      | Json.str s => Except.ok (AttributeValue.N s)
      | _ => Except.error "invalid type for variant N"
    else if tag = "Ns" then
      match payload with
      | Json.arr xs => (decodeStringListF xs).map (fun l => AttributeValue.Ns l)
      | _ => Except.error "invalid type for variant Ns"
    else if tag = "Null" then
      match payload with
      | Json.bool b => Except.ok (AttributeValue.Null b)
      | _ => Except.error "invalid type for variant Null"
    else if tag = "S" then
      match payload with
      | Json.str s => Except.ok (AttributeValue.S s)
      | _ => Except.error "invalid type for variant S"
    else if tag = "Ss" then
      match payload with
      | Json.arr xs => (decodeStringListF xs).map (fun l => AttributeValue.Ss l)
      | _ => Except.error "invalid type for variant Ss"
    else Except.error "unknown variant"
  | Nat.succ _, _ => Except.error "expected a map with a single key"

/-- Serde decode of an array of AttributeValue. -/
def decodeAttrListF : Nat → List Json → Except String (List AttributeValue)
  | 0, _ => Except.error "recursion depth exceeded"
  | Nat.succ _, [] => Except.ok []
  | Nat.succ n, x :: xs => do
    let a ← decodeAttrF n x
    let rest ← decodeAttrListF n xs
    Except.ok (a :: rest)

/-- Serde decode of an object of AttributeValue, keeping field order. -/
def decodeAttrFieldsF : Nat → List (String × Json) → Except String (List (String × AttributeValue))
  | 0, _ => Except.error "recursion depth exceeded"
  | Nat.succ _, [] => Except.ok []
  | Nat.succ n, (k, x) :: xs => do
    let a ← decodeAttrF n x
    let rest ← decodeAttrFieldsF n xs
    Except.ok ((k, a) :: rest)

end

/-- Serde decode of an attribute mapping (Keys, NewImage or OldImage
payload): an object whose values are attribute values. -/
def decodeImage : Json → Except String (List (String × AttributeValue))
  | Json.obj fs => decodeAttrFieldsF serdeFuel fs
  | _ => Except.error "invalid type: expected a map of attribute values"

/-- Serde decode of an attribute mapping field carrying the default
attribute: a missing field yields the empty map. -/
def decodeImageOpt : Option Json → Except String (List (String × AttributeValue))
  | none => Except.ok []
  | some j => decodeImage j

/-- Serde decode of the optional creation timestamp with the default
attribute: missing or null yields None. -/
def decodeOptNum : Option Json → Except String (Option ℚ)
  | none => Except.ok none
  | some Json.null => Except.ok none
  | some (Json.num q) => Except.ok (some q)
  | some _ => Except.error "invalid type: expected f64"

/-- Serde decode of a required f64 field. -/
def decodeNumReq : Option Json → Except String ℚ
  | some (Json.num q) => Except.ok q
  | some _ => Except.error "invalid type: expected f64"
  | none => Except.error "missing field"

/-- Serde decode of a required string field. -/
def decodeStrReq : Option Json → Except String String
  | some (Json.str s) => Except.ok s
  | some _ => Except.error "invalid type: expected a string"
  | none => Except.error "missing field"

/-- Serde decode of DynamoDBStreamRecord: fields are read by their renamed
wire names; Keys, NewImage, OldImage and the timestamp default when
missing, the rest are required.  Unknown fields are ignored, as serde does
without deny_unknown_fields. -/
def decodeStreamRecord : Json → Except String DynamoDBStreamRecord
  | Json.obj fs => do
    let approximate_creation_date_time ← decodeOptNum (lookupKey fs "ApproximateCreationDateTime")
    let keys ← decodeImageOpt (lookupKey fs "Keys")
    let new_image ← decodeImageOpt (lookupKey fs "NewImage")
    let old_image ← decodeImageOpt (lookupKey fs "OldImage")
    let sequence_number ← decodeStrReq (lookupKey fs "SequenceNumber")
    let size_bytes ← decodeNumReq (lookupKey fs "SizeBytes")
    let stream_view_type ← decodeStrReq (lookupKey fs "StreamViewType")
    Except.ok { approximate_creation_date_time := approximate_creation_date_time,
                keys := keys, new_image := new_image, old_image := old_image,
                sequence_number := sequence_number, size_bytes := size_bytes,
                stream_view_type := stream_view_type }
  | _ => Except.error "invalid type: expected DynamoDBStreamRecord"

/-- Serde decode of DynamoDBRecord: all seven fields are required. -/
def decodeRecord : Json → Except String DynamoDBRecord
  | Json.obj fs => do
    let aws_region ← decodeStrReq (lookupKey fs "awsRegion")
    let dynamodb ← match lookupKey fs "dynamodb" with
      | some j => decodeStreamRecord j
      | none => Except.error "missing field dynamodb"
    let event_id ← decodeStrReq (lookupKey fs "eventID")
    let event_name ← decodeStrReq (lookupKey fs "eventName")
    let event_source ← decodeStrReq (lookupKey fs "eventSource")
    let event_source_arn ← decodeStrReq (lookupKey fs "eventSourceARN")
    let event_version ← decodeStrReq (lookupKey fs "eventVersion")
    Except.ok { aws_region := aws_region, dynamodb := dynamodb, event_id := event_id,
                event_name := event_name, event_source := event_source,
                event_source_arn := event_source_arn, event_version := event_version }
  | _ => Except.error "invalid type: expected DynamoDBRecord"

/-- Serde decode of a Records array. -/
def decodeRecordList : List Json → Except String (List DynamoDBRecord)
  | [] => Except.ok []
  | x :: xs => do
    let r ← decodeRecord x
    let rest ← decodeRecordList xs
    Except.ok (r :: rest)

/-- Serde decode of the DynamoDBEvent envelope: the required Records array. -/
def decodeDynamoDBEvent : Json → Except String DynamoDBEvent
  | Json.obj fs =>
    (match lookupKey fs "Records" with
      | some (Json.arr xs) => (decodeRecordList xs).map (fun records => { records := records })
      | some _ => Except.error "invalid type: expected a sequence"
      | none => Except.error "missing field Records")
  | _ => Except.error "invalid type: expected struct DynamoDBEvent"

mutual

/-- Rendering of a JSON value as text, modelling to_string_pretty up to
whitespace and number formatting; the pipeline computes this string only
for a message that it then discards, so no theorem depends on its exact
shape. -/
def prettyJson : Json → String
  | Json.null => "null"
  | Json.bool b => if b then "true" else "false"
  | Json.num q => toString q.num ++ "/" ++ toString q.den
  | Json.str s => "\"" ++ s ++ "\""
  | Json.arr xs => "[" ++ prettyJsonList xs ++ "]"
  | Json.obj fs => "\x7b" ++ prettyJsonFields fs ++ "\x7d"

/-- Rendering of the elements of a JSON array. -/
def prettyJsonList : List Json → String
  | [] => ""
  | [x] => prettyJson x
  | x :: xs => prettyJson x ++ ", " ++ prettyJsonList xs

/-- Rendering of the fields of a JSON object. -/
def prettyJsonFields : List (String × Json) → String
  | [] => ""
  | [(k, x)] => "\"" ++ k ++ "\": " ++ prettyJson x
  | (k, x) :: xs => "\"" ++ k ++ "\": " ++ prettyJson x ++ ", " ++ prettyJsonFields xs

end

/-- json_to_ddb_event_structs from mod.rs: serde-decode the envelope and
parse the records.  On a decode failure the source formats a diagnostic
message from the decode error and the pretty-printed payload, binds it to
an unused local and returns the constant ClientError, exactly as modelled
here. -/
def json_to_ddb_event_structs (event : Json) : Except Error (List Event) := do
  let result : Except Error (Except Error (List Event)) :=
    match decodeDynamoDBEvent event with
    | Except.ok ddb_event => Except.ok (parse_ddb_events ddb_event)
    | Except.error e =>
      let incoming_event := prettyJson event
      let message := "Error parsing dynamo db events:\n" ++ e
        ++ "\nReceived Event Json:\n" ++ incoming_event
      Except.error (Error.ClientError "Error parsing json")
  let inner ← result
  inner

theorem except_mbind_ok {ε α β : Type} (a : α) (f : α → Except ε β) :
    (Except.ok a : Except ε α) >>= f = f a := rfl

theorem except_mbind_error {ε α β : Type} (e : ε) (f : α → Except ε β) :
    (Except.error e : Except ε α) >>= f = (Except.error e : Except ε β) := rfl

theorem except_bind_ok {ε α β : Type} (a : α) (f : α → Except ε β) :
    Except.bind (Except.ok a) f = f a := rfl

theorem decodeImageOpt_none : decodeImageOpt none = Except.ok [] := rfl

theorem except_bind_error {ε α β : Type} (e : ε) (f : α → Except ε β) :
    Except.bind (Except.error e) f = Except.error e := rfl

theorem collectResults_error_of_mem (l : List (Except Error Event))
    (h : ∃ x ∈ l, ∃ err, x = Except.error err) :
    ∃ err, collectResults l = Except.error err := by
  induction l with
  | nil => rcases h with ⟨x, hx, _⟩; cases hx
  | cons y ys ih =>
    rcases y with e | v
    · exact ⟨e, rfl⟩
    · rcases h with ⟨x, hx, err, hxe⟩
      rcases List.mem_cons.mp hx with h1 | h1
      · rw [h1] at hxe; cases hxe
      · rcases ih ⟨x, h1, err, hxe⟩ with ⟨e2, he2⟩
        exact ⟨e2, by simp [collectResults, he2, Except.map]⟩

theorem collectResults_ok_iff (l : List (Except Error Event)) (vs : List Event) :
    collectResults l = Except.ok vs ↔ l = vs.map Except.ok := by
  induction l generalizing vs with
  | nil =>
    cases vs with
    | nil => simp [collectResults]
    | cons v vs => simp [collectResults]
  | cons y ys ih =>
    rcases y with e | v
    · simp only [collectResults]
      constructor
      · intro h; cases h
      · intro h
        cases vs with
        | nil => cases h
        | cons w ws => simp at h
    · simp only [collectResults]
      cases hrec : collectResults ys with
      | error e2 =>
        simp only [Except.map]
        constructor
        · intro h; cases h
        · intro h
          cases vs with
          | nil => cases h
          | cons w ws =>
            simp at h
            rw [(ih ws).mpr h.2] at hrec
            cases hrec
      | ok ws =>
        simp only [Except.map]
        constructor
        · intro h
          cases h
          simpa using (ih ws).mp hrec
        · intro h
          cases vs with
          | nil => cases h
          | cons w ws2 =>
            simp at h
            rw [(ih ws2).mpr h.2] at hrec
            cases hrec
            simp [h.1]

theorem collectResults_ok_of_all_ok (l : List (Except Error Event))
    (h : ∀ x ∈ l, ∃ v, x = Except.ok v) :
    ∃ vs, collectResults l = Except.ok vs := by
  induction l with
  | nil => exact ⟨[], rfl⟩
  | cons y ys ih =>
    rcases h y (List.mem_cons_self y ys) with ⟨v, hv⟩
    rcases ih (fun x hx => h x (List.mem_cons_of_mem y hx)) with ⟨vs, hvs⟩
    exact ⟨v :: vs, by rw [hv]; simp [collectResults, hvs, Except.map]⟩

theorem map_eq_map_get {α β γ : Type} (f : α → γ) (g : β → γ) :
    ∀ (l1 : List α) (l2 : List β), l1.map f = l2.map g →
      ∀ i (h1 : i < l1.length) (h2 : i < l2.length),
        f (l1.get ⟨i, h1⟩) = g (l2.get ⟨i, h2⟩) := by
  intro l1
  induction l1 with
  | nil => intro l2 h i h1 h2; cases h1
  | cons x xs ih =>
    intro l2 h i h1 h2
    cases l2 with
    | nil => cases h2
    | cons y ys =>
      rw [List.map_cons, List.map_cons] at h
      injection h with hhead htail
      cases i with
      | zero => exact hhead
      | succ j => exact ih ys htail j (Nat.lt_of_succ_lt_succ h1) (Nat.lt_of_succ_lt_succ h2)

/-- C3: for every decoded change record, INSERT yields Created of the new
image projection, MODIFY yields Updated of the old and new projections with
the old image projected first so that its error is the one surfaced when
both fail, REMOVE yields Deleted of the old image projection, and any other
event kind fails with the unrecognized-event-kind error, so no record is
silently dropped. -/
theorem C3_record_classifier (r : DynamoDBRecord) :
    (r.event_name = "INSERT" →
      Event.tryFromRecord r = (Product.tryFromImage r.dynamodb.new_image).map Event.Created) ∧
    (r.event_name = "MODIFY" →
      Event.tryFromRecord r =
        (Product.tryFromImage r.dynamodb.old_image).bind (fun old =>
          (Product.tryFromImage r.dynamodb.new_image).map (fun new => Event.Updated old new))) ∧
    (r.event_name = "MODIFY" → ∀ e, Product.tryFromImage r.dynamodb.old_image = Except.error e →
      Event.tryFromRecord r = Except.error e) ∧
    (r.event_name = "REMOVE" →
      Event.tryFromRecord r = (Product.tryFromImage r.dynamodb.old_image).map Event.Deleted) ∧
    (r.event_name ≠ "INSERT" → r.event_name ≠ "MODIFY" → r.event_name ≠ "REMOVE" →
      Event.tryFromRecord r = Except.error (Error.InternalError "Unknown event type")) := by
  refine ⟨?_, ?_, ?_, ?_, ?_⟩
  · intro h
    rw [Event.tryFromRecord, if_pos h]
    cases Product.tryFromImage r.dynamodb.new_image <;> rfl
  · intro h
    rw [Event.tryFromRecord, if_neg (by rw [h]; decide), if_pos h]
    cases Product.tryFromImage r.dynamodb.old_image with
    | error e => rfl
    | ok old => cases Product.tryFromImage r.dynamodb.new_image <;> rfl
  · intro h e he
    rw [Event.tryFromRecord, if_neg (by rw [h]; decide), if_pos h, he]
    rfl
  · intro h
    rw [Event.tryFromRecord, if_neg (by rw [h]; decide), if_neg (by rw [h]; decide), if_pos h]
    cases Product.tryFromImage r.dynamodb.old_image <;> rfl
  · intro h1 h2 h3
    rw [Event.tryFromRecord, if_neg h1, if_neg h2, if_neg h3]

/-- C3 witness: a concrete INSERT record classifies as the theorem states. -/
theorem C3_record_classifier_witness :
    Event.tryFromRecord
      { aws_region := "us-west-2",
        dynamodb := { approximate_creation_date_time := none,
                      keys := [("Id", AttributeValue.S "101")],
                      new_image := [("Id", AttributeValue.S "101"),
                                    ("Name", AttributeValue.S "new-item"),
                                    ("Price", AttributeValue.N "10.5")],
                      old_image := [],
                      sequence_number := "111", size_bytes := 26,
                      stream_view_type := "NEW_AND_OLD_IMAGES" },
        event_id := "1", event_name := "INSERT", event_source := "aws:dynamodb",
        event_source_arn := "someARN", event_version := "1.0" } =
    (Product.tryFromImage [("Id", AttributeValue.S "101"),
                           ("Name", AttributeValue.S "new-item"),
                           ("Price", AttributeValue.N "10.5")]).map Event.Created :=
  (C3_record_classifier _).1 rfl

/-- C4: a batch in which at least one record fails to classify transforms
to a single failure; no event list is produced at all, in particular no
event for any valid record of the batch. -/
theorem C4_all_or_nothing (e : DynamoDBEvent)
    (h : ∃ r ∈ e.records, ∃ err, Event.tryFromRecord r = Except.error err) :
    (∃ err, parse_ddb_events e = Except.error err) ∧
    ∀ events, parse_ddb_events e ≠ Except.ok events := by
  rcases h with ⟨r, hr, err, herr⟩
  have hmem : ∃ x ∈ e.records.map (fun r => Event.tryFromRecord r), ∃ e2, x = Except.error e2 :=
    ⟨Event.tryFromRecord r, List.mem_map_of_mem _ hr, err, herr⟩
  rcases collectResults_error_of_mem _ hmem with ⟨e2, he2⟩
  refine ⟨⟨e2, he2⟩, ?_⟩
  intro events hok
  rw [parse_ddb_events] at hok
  rw [hok] at he2
  cases he2

/-- C5: a batch whose records all classify successfully transforms to
exactly one event per record, the i-th output being the classification of
the i-th input record.  The rayon parallel iterator of the source is
index-preserving, so its observable behavior is the order-preserving
denotation proved here. -/
theorem C5_order_preserved (e : DynamoDBEvent)
    (h : ∀ r ∈ e.records, ∃ ev, Event.tryFromRecord r = Except.ok ev) :
    ∃ events, parse_ddb_events e = Except.ok events ∧
      events.length = e.records.length ∧
      ∀ i (h1 : i < e.records.length) (h2 : i < events.length),
        Event.tryFromRecord (e.records.get ⟨i, h1⟩) = Except.ok (events.get ⟨i, h2⟩) := by
  have hall : ∀ x ∈ e.records.map (fun r => Event.tryFromRecord r), ∃ v, x = Except.ok v := by
    intro x hx
    rcases List.mem_map.mp hx with ⟨r, hr, hxr⟩
    rcases h r hr with ⟨ev, hev⟩
    exact ⟨ev, by rw [← hxr, hev]⟩
  rcases collectResults_ok_of_all_ok _ hall with ⟨events, hevents⟩
  have hmap := (collectResults_ok_iff _ events).mp hevents
  refine ⟨events, hevents, ?_, ?_⟩
  · have := congrArg List.length hmap
    simpa using this.symm
  · intro i h1 h2
    exact map_eq_map_get (fun r => Event.tryFromRecord r) Except.ok e.records events hmap i h1 h2

/-- Valid INSERT record fixture used by the batch witnesses. -/
def wRecordInsert : DynamoDBRecord :=
  { aws_region := "us-west-2",
    dynamodb := { approximate_creation_date_time := none,
                  keys := [("Id", AttributeValue.S "101")],
                  new_image := [("Id", AttributeValue.S "101"),
                                ("Name", AttributeValue.S "new-item"),
                                ("Price", AttributeValue.N "10.5")],
                  old_image := [],
                  sequence_number := "111", size_bytes := 26,
                  stream_view_type := "NEW_AND_OLD_IMAGES" },
    event_id := "1", event_name := "INSERT", event_source := "aws:dynamodb",
    event_source_arn := "someARN", event_version := "1.0" }

/-- Malformed record fixture: an unrecognized event kind. -/
def wRecordBogus : DynamoDBRecord :=
  { aws_region := "us-west-2",
    dynamodb := { approximate_creation_date_time := none,
                  keys := [], new_image := [], old_image := [],
                  sequence_number := "222", size_bytes := 26,
                  stream_view_type := "NEW_AND_OLD_IMAGES" },
    event_id := "2", event_name := "BOGUS", event_source := "aws:dynamodb",
    event_source_arn := "someARN", event_version := "1.0" }

/-- Valid REMOVE record fixture used by the batch witnesses. -/
def wRecordRemove : DynamoDBRecord :=
  { aws_region := "us-west-2",
    dynamodb := { approximate_creation_date_time := none,
                  keys := [("Id", AttributeValue.S "102")],
                  new_image := [],
                  old_image := [("Id", AttributeValue.S "102"),
                                ("Name", AttributeValue.S "old-item"),
                                ("Price", AttributeValue.N "20.5")],
                  sequence_number := "333", size_bytes := 26,
                  stream_view_type := "NEW_AND_OLD_IMAGES" },
    event_id := "3", event_name := "REMOVE", event_source := "aws:dynamodb",
    event_source_arn := "someARN", event_version := "1.0" }

/-- C4 witness: a two-record batch whose second record is malformed aborts
whole, with no event produced for the first, valid record. -/
theorem C4_all_or_nothing_witness :
    (∃ err, parse_ddb_events { records := [wRecordInsert, wRecordBogus] } = Except.error err) ∧
    ∀ events, parse_ddb_events { records := [wRecordInsert, wRecordBogus] } ≠ Except.ok events :=
  C4_all_or_nothing { records := [wRecordInsert, wRecordBogus] }
    ⟨wRecordBogus, List.mem_cons_of_mem wRecordInsert (List.mem_cons_self wRecordBogus []),
     Error.InternalError "Unknown event type", by decide⟩

/-- C5 witness: a two-record batch of valid records transforms to exactly
the two classifications in input order. -/
theorem C5_order_preserved_witness :
    ∃ events, parse_ddb_events { records := [wRecordInsert, wRecordRemove] } = Except.ok events ∧
      events.length = ({ records := [wRecordInsert, wRecordRemove] } : DynamoDBEvent).records.length ∧
      ∀ i (h1 : i < ({ records := [wRecordInsert, wRecordRemove] } : DynamoDBEvent).records.length)
        (h2 : i < events.length),
        Event.tryFromRecord (({ records := [wRecordInsert, wRecordRemove] } :
            DynamoDBEvent).records.get ⟨i, h1⟩) = Except.ok (events.get ⟨i, h2⟩) :=
  C5_order_preserved { records := [wRecordInsert, wRecordRemove] } (by
    intro r hr
    rcases List.mem_cons.mp hr with h | h
    · refine ⟨Event.Created
        { id := "101", name := "new-item", price := RustFloat.finite (mkRat 21 2) }, ?_⟩
      rw [h]; decide
    · rcases List.mem_cons.mp h with h2 | h2
      · refine ⟨Event.Deleted
          { id := "102", name := "old-item", price := RustFloat.finite (mkRat 41 2) }, ?_⟩
        rw [h2]; decide
      · cases h2)

/-- C8 counterexample: the set accessors do not signal a type-mismatch
failure.  On a tag mismatch as_ss returns the empty list, indistinguishable
from a genuine empty string set, as_ns does the same, and as_ns silently
drops elements that fail numeric parsing instead of failing.  Moreover the
numeric accessor does NOT fail whenever the N string is not a valid finite
decimal: the spellings inf, infinity and nan in any letter case with an
optional sign, and decimals whose magnitude overflows the double range,
all parse successfully to non-finite values. -/
theorem C8_set_accessors_counterexample :
    (AttributeValue.Bool true).as_ss = [] ∧
    (AttributeValue.Bool true).as_ss = (AttributeValue.Ss []).as_ss ∧
    (AttributeValue.Bool true).as_ns = [] ∧
    (AttributeValue.Ns ["not-a-number"]).as_ns = [] ∧
    (AttributeValue.N "inf").as_n = some RustFloat.posInf ∧
    (AttributeValue.N "-INFINITY").as_n = some RustFloat.negInf ∧
    (AttributeValue.N "NaN").as_n = some RustFloat.nan ∧
    (AttributeValue.N "1e999").as_n = some RustFloat.posInf := by
  decide

/-- C8 amended: the single-value accessors as_bool, as_l, as_m, as_n,
as_null and as_s return the contained value exactly when the tag matches
and fail otherwise, never coercing across tags; but as_n does not fail on
every N string that is not a valid finite decimal: the spellings inf,
infinity and nan (any letter case, optional sign) and overflowing decimals
succeed with the non-finite values infinity, negative infinity or NaN, and
as_n fails only when the string falls outside the float grammar
altogether; the set accessors as_ns and as_ss signal no failure: they
return the empty collection on a tag mismatch, and as_ns silently drops
elements that fail numeric parsing. -/
theorem C8_typed_accessors :
    (∀ v b, AttributeValue.as_bool v = some b ↔ v = AttributeValue.Bool b) ∧
    (∀ v l, AttributeValue.as_l v = some l ↔ v = AttributeValue.L l) ∧
    (∀ v m, AttributeValue.as_m v = some m ↔ v = AttributeValue.M m) ∧
    (∀ v f, AttributeValue.as_n v = some f ↔ ∃ s, v = AttributeValue.N s ∧ parseF64 s = some f) ∧
    (∀ v b, AttributeValue.as_null v = some b ↔ v = AttributeValue.Null b) ∧
    (∀ v s, AttributeValue.as_s v = some s ↔ v = AttributeValue.S s) ∧
    ((AttributeValue.N "Inf").as_n = some RustFloat.posInf ∧
     (AttributeValue.N "-Infinity").as_n = some RustFloat.negInf ∧
     (AttributeValue.N "nan").as_n = some RustFloat.nan ∧
     (AttributeValue.N "2e999").as_n = some RustFloat.posInf ∧
     (AttributeValue.N "not-a-number").as_n = none) ∧
    (∀ ns, (AttributeValue.Ns ns).as_ns = ns.filterMap parseF64) ∧
    (∀ v, (∀ ns, v ≠ AttributeValue.Ns ns) → v.as_ns = []) ∧
    (∀ ss, (AttributeValue.Ss ss).as_ss = ss) ∧
    (∀ v, (∀ ss, v ≠ AttributeValue.Ss ss) → v.as_ss = []) := by
  refine ⟨?_, ?_, ?_, ?_, ?_, ?_, ?_, ?_, ?_, ?_, ?_⟩
  · intro v b; cases v <;> simp [AttributeValue.as_bool]
  · intro v l; cases v <;> simp [AttributeValue.as_l]
  · intro v m; cases v <;> simp [AttributeValue.as_m]
  · intro v f; cases v <;> simp [AttributeValue.as_n]
  · intro v b; cases v <;> simp [AttributeValue.as_null]
  · intro v s; cases v <;> simp [AttributeValue.as_s]
  · decide
  · intro ns; rfl
  · intro v h
    cases v with
    | Ns ns => exact absurd rfl (h ns)
    | _ => rfl
  · intro ss; rfl
  · intro v h
    cases v with
    | Ss ss => exact absurd rfl (h ss)
    | _ => rfl

/-- C8 witness: the amended accessor contract applied at concrete values. -/
theorem C8_typed_accessors_witness :
    (AttributeValue.Bool true).as_ns = [] ∧ (AttributeValue.S "x").as_ss = [] :=
  ⟨C8_typed_accessors.2.2.2.2.2.2.2.2.1 (AttributeValue.Bool true)
      (fun _ h => AttributeValue.noConfusion h),
   C8_typed_accessors.2.2.2.2.2.2.2.2.2.2 (AttributeValue.S "x")
      (fun _ h => AttributeValue.noConfusion h)⟩

/-- C7: evaluation of the batch transform at structurally invalid
envelopes.  The returned error is the constant ClientError with the fixed
text Error parsing json; two different malformed payloads produce the
identical error value, so the error reports neither the decode failure
detail nor any copy of the payload.  The source builds a diagnostic message
holding both and then discards it unused. -/
theorem C7_structural_error_payload_lost :
    json_to_ddb_event_structs (Json.obj []) =
      Except.error (Error.ClientError "Error parsing json") ∧
    json_to_ddb_event_structs (Json.str "a completely different payload") =
      Except.error (Error.ClientError "Error parsing json") := by
  decide

/-- C10 counterexample: a mapping whose lowercase name key is absent while
the capitalized Name key is present does not fail with the missing-name
error the claim requires for that field; the decoder fails on the earlier
id field instead. -/
theorem C10_store_decoder_counterexample :
    Product.from_dynamodb [("Name", AttributeValue.S "x")] =
      Except.error (Error.InternalError "Missing 'id'") ∧
    Product.from_dynamodb [("Name", AttributeValue.S "x")] ≠
      Except.error (Error.InternalError "Missing 'name'") := by
  decide

/-- C10 amended: the store-side decoder consults only the lowercase keys
id, name and price, in that fixed order, and the first failing field
determines the error: whatever capitalized keys are present, a mapping
lacking id fails with the missing-id error, a mapping whose id resolves to
a string but lacking name fails with the missing-name error, and one whose
id and name resolve but lacking price fails with the missing-price error.
The stream-side canonical-then-alternate casing tolerance does not exist
on this path. -/
theorem C10_store_lowercase_only :
    (∀ item, lookupKey item "id" = none →
      Product.from_dynamodb item = Except.error (Error.InternalError "Missing 'id'")) ∧
    (∀ item s, lookupKey item "id" = some (AttributeValue.S s) →
      lookupKey item "name" = none →
      Product.from_dynamodb item = Except.error (Error.InternalError "Missing 'name'")) ∧
    (∀ item s t, lookupKey item "id" = some (AttributeValue.S s) →
      lookupKey item "name" = some (AttributeValue.S t) →
      lookupKey item "price" = none →
      Product.from_dynamodb item = Except.error (Error.InternalError "Missing 'price'")) := by
  refine ⟨?_, ?_, ?_⟩
  · intro item h
    simp [Product.from_dynamodb, get_key, h, Bind.bind, except_bind_error]
  · intro item s h1 h2
    simp [Product.from_dynamodb, get_key, h1, h2, sdkAsS, Bind.bind,
      except_bind_error, except_bind_ok]
  · intro item s t h1 h2 h3
    simp [Product.from_dynamodb, get_key, h1, h2, h3, sdkAsS, Bind.bind,
      except_bind_error, except_bind_ok]

/-- C10 witness: the amended per-field behavior at a concrete mapping with
id and name but no price. -/
theorem C10_store_lowercase_only_witness :
    Product.from_dynamodb [("id", AttributeValue.S "1"), ("name", AttributeValue.S "n")] =
      Except.error (Error.InternalError "Missing 'price'") :=
  C10_store_lowercase_only.2.2 [("id", AttributeValue.S "1"), ("name", AttributeValue.S "n")]
    "1" "n" rfl rfl rfl

/-- Stream-record JSON fields of a REMOVE record that lacks OldImage. -/
def c6Fields : List (String × Json) :=
  [("Keys", Json.obj [("id", Json.obj [("S", Json.str "p1")])]),
   ("SequenceNumber", Json.str "111"), ("SizeBytes", Json.num 59),
   ("StreamViewType", Json.str "NEW_AND_OLD_IMAGES")]

/-- Decoded stream record of c6Fields: both images default to empty. -/
def c6Stream : DynamoDBStreamRecord :=
  { approximate_creation_date_time := none,
    keys := [("id", AttributeValue.S "p1")],
    new_image := [], old_image := [],
    sequence_number := "111", size_bytes := 59,
    stream_view_type := "NEW_AND_OLD_IMAGES" }

/-- Full record JSON of a REMOVE record that lacks OldImage. -/
def c6Json : Json :=
  Json.obj [("awsRegion", Json.str "eu-central-1"),
            ("dynamodb", Json.obj c6Fields),
            ("eventID", Json.str "2"), ("eventName", Json.str "REMOVE"),
            ("eventSource", Json.str "aws:dynamodb"),
            ("eventSourceARN", Json.str "arn"),
            ("eventVersion", Json.str "1.1")]

/-- Decoded record of c6Json. -/
def c6Record : DynamoDBRecord :=
  { aws_region := "eu-central-1", dynamodb := c6Stream,
    event_id := "2", event_name := "REMOVE", event_source := "aws:dynamodb",
    event_source_arn := "arn", event_version := "1.1" }

/-- C6 counterexample: a REMOVE record lacking OldImage passes the
structural decode phase (serde default fills the empty map) and processing
then fails at projection level with the missing-id error, contrary to the
claimed structural decode failure. -/
theorem C6_remove_without_old_image_counterexample :
    decodeRecord c6Json = Except.ok c6Record ∧
    Event.tryFromRecord c6Record = Except.error (Error.InternalError "Missing id in lambda") :=
  ⟨rfl, by decide⟩

/-- Inversion of the stream-record decoder: a successful decode read both
image fields through decodeImageOpt. -/
theorem decodeStreamRecord_images (fs : List (String × Json)) (r : DynamoDBStreamRecord)
    (hdec : decodeStreamRecord (Json.obj fs) = Except.ok r) :
    decodeImageOpt (lookupKey fs "NewImage") = Except.ok r.new_image ∧
    decodeImageOpt (lookupKey fs "OldImage") = Except.ok r.old_image := by
  simp only [decodeStreamRecord] at hdec
  cases h1 : decodeOptNum (lookupKey fs "ApproximateCreationDateTime") with
  | error e =>
    rw [h1] at hdec
    simp only [except_mbind_error] at hdec
    exact Except.noConfusion hdec
  | ok a1 =>
    rw [h1] at hdec
    simp only [except_mbind_ok] at hdec
    cases h2 : decodeImageOpt (lookupKey fs "Keys") with
    | error e =>
      rw [h2] at hdec
      simp only [except_mbind_error] at hdec
      exact Except.noConfusion hdec
    | ok a2 =>
      rw [h2] at hdec
      simp only [except_mbind_ok] at hdec
      cases h3 : decodeImageOpt (lookupKey fs "NewImage") with
      | error e =>
        rw [h3] at hdec
        simp only [except_mbind_error] at hdec
        exact Except.noConfusion hdec
      | ok a3 =>
        rw [h3] at hdec
        simp only [except_mbind_ok] at hdec
        cases h4 : decodeImageOpt (lookupKey fs "OldImage") with
        | error e =>
          rw [h4] at hdec
          simp only [except_mbind_error] at hdec
          exact Except.noConfusion hdec
        | ok a4 =>
          rw [h4] at hdec
          simp only [except_mbind_ok] at hdec
          cases h5 : decodeStrReq (lookupKey fs "SequenceNumber") with
          | error e =>
            rw [h5] at hdec
            simp only [except_mbind_error] at hdec
            exact Except.noConfusion hdec
          | ok a5 =>
            rw [h5] at hdec
            simp only [except_mbind_ok] at hdec
            cases h6 : decodeNumReq (lookupKey fs "SizeBytes") with
            | error e =>
              rw [h6] at hdec
              simp only [except_mbind_error] at hdec
              exact Except.noConfusion hdec
            | ok a6 =>
              rw [h6] at hdec
              simp only [except_mbind_ok] at hdec
              cases h7 : decodeStrReq (lookupKey fs "StreamViewType") with
              | error e =>
                rw [h7] at hdec
                simp only [except_mbind_error] at hdec
                exact Except.noConfusion hdec
              | ok a7 =>
                rw [h7] at hdec
                simp only [except_mbind_ok] at hdec
                injection hdec with h
                rw [← h]
                exact ⟨rfl, rfl⟩

/-- C6 amended: a stream-record object lacking the OldImage field (and
likewise one lacking the NewImage field) passes the structural decode
phase with the missing image defaulted to the empty mapping, by the serde
default attribute; a REMOVE record carrying a stream record whose OldImage
was absent, and an INSERT record carrying one whose NewImage was absent,
then fail at projection level with the missing-id error on the
silently-empty image, not with a structural decode error. -/
theorem C6_missing_image_defaults (fs : List (String × Json)) (r : DynamoDBStreamRecord)
    (hdec : decodeStreamRecord (Json.obj fs) = Except.ok r) :
    (lookupKey fs "OldImage" = none →
      r.old_image = [] ∧
      ∀ rec : DynamoDBRecord, rec.dynamodb = r → rec.event_name = "REMOVE" →
        Event.tryFromRecord rec = Except.error (Error.InternalError "Missing id in lambda")) ∧
    (lookupKey fs "NewImage" = none →
      r.new_image = [] ∧
      ∀ rec : DynamoDBRecord, rec.dynamodb = r → rec.event_name = "INSERT" →
        Event.tryFromRecord rec = Except.error (Error.InternalError "Missing id in lambda")) := by
  obtain ⟨hnew, hold⟩ := decodeStreamRecord_images fs r hdec
  constructor
  · intro hnone
    rw [hnone, decodeImageOpt_none] at hold
    have hempty : r.old_image = [] := by
      injection hold with h
      exact h.symm
    refine ⟨hempty, ?_⟩
    intro rec hrec hname
    rw [Event.tryFromRecord, if_neg (by rw [hname]; decide), if_neg (by rw [hname]; decide),
      if_pos hname, hrec, hempty]
    decide
  · intro hnone
    rw [hnone, decodeImageOpt_none] at hnew
    have hempty : r.new_image = [] := by
      injection hnew with h
      exact h.symm
    refine ⟨hempty, ?_⟩
    intro rec hrec hname
    rw [Event.tryFromRecord, if_pos hname, hrec, hempty]
    decide

/-- C6 witness: the amended behavior at the concrete stream record lacking
both images, read by a REMOVE record. -/
theorem C6_missing_image_defaults_witness :
    c6Stream.old_image = [] ∧ c6Stream.new_image = [] ∧
    Event.tryFromRecord c6Record = Except.error (Error.InternalError "Missing id in lambda") :=
  ⟨((C6_missing_image_defaults c6Fields c6Stream rfl).1 rfl).1,
   ((C6_missing_image_defaults c6Fields c6Stream rfl).2 rfl).1,
   ((C6_missing_image_defaults c6Fields c6Stream rfl).1 rfl).2 c6Record rfl rfl⟩

theorem okOrErr_some {β : Type} (x : β) (e : Error) : okOrErr (some x) e = Except.ok x := rfl

theorem okOrErr_none {β : Type} (e : Error) : okOrErr (none : Option β) e = Except.error e := rfl

theorem resolve_chunk_eq (value : List (String × AttributeValue)) (c a : String) (e : Error) :
    (match lookupKey value c with
     | some v => Except.ok v
     | none => okOrErr (lookupKey value a) e) = okOrErr (resolveField value c a) e := by
  unfold resolveField
  cases lookupKey value c <;> cases lookupKey value a <;> rfl

theorem tryFromImage_eq_spec (value : List (String × AttributeValue)) :
    Product.tryFromImage value = projectSpecModel value := by
  unfold Product.tryFromImage projectSpecModel
  simp only [resolve_chunk_eq]

theorem projectSpec_ok_inv (value : List (String × AttributeValue)) (p : Product)
    (h : projectSpecModel value = Except.ok p) :
    (∃ vI, resolveField value "Id" "id" = some vI ∧ vI.as_s = some p.id) ∧
    (∃ vN, resolveField value "Name" "name" = some vN ∧ vN.as_s = some p.name) ∧
    (∃ vP, resolveField value "Price" "price" = some vP ∧ vP.as_n = some p.price) := by
  unfold projectSpecModel at h
  cases hI : resolveField value "Id" "id" with
  | none => rw [hI, okOrErr_none] at h; exact Except.noConfusion h
  | some vI =>
    rw [hI, okOrErr_some] at h
    simp only [except_mbind_ok] at h
    cases hIs : vI.as_s with
    | none => rw [hIs, okOrErr_none] at h; exact Except.noConfusion h
    | some sI =>
      rw [hIs, okOrErr_some] at h
      simp only [except_mbind_ok] at h
      cases hN : resolveField value "Name" "name" with
      | none => rw [hN, okOrErr_none] at h; exact Except.noConfusion h
      | some vN =>
        rw [hN, okOrErr_some] at h
        simp only [except_mbind_ok] at h
        cases hNs : vN.as_s with
        | none => rw [hNs, okOrErr_none] at h; exact Except.noConfusion h
        | some sN =>
          rw [hNs, okOrErr_some] at h
          simp only [except_mbind_ok] at h
          cases hP : resolveField value "Price" "price" with
          | none => rw [hP, okOrErr_none] at h; exact Except.noConfusion h
          | some vP =>
            rw [hP, okOrErr_some] at h
            simp only [except_mbind_ok] at h
            cases hPn : vP.as_n with
            | none => rw [hPn, okOrErr_none] at h; exact Except.noConfusion h
            | some q =>
              rw [hPn, okOrErr_some] at h
              simp only [except_mbind_ok] at h
              injection h with h2
              rw [← h2]
              exact ⟨⟨vI, rfl, hIs⟩, ⟨vN, rfl, hNs⟩, ⟨vP, rfl, hPn⟩⟩

/-- C1: the projection resolves each of the three fields by consulting the
canonical capitalized key first and the lowercase alternate key only when
the canonical one is absent: the code projection equals the spec model
built from that resolution policy.  Consequently, whenever projection
succeeds and the resolved identifier value is a string, the projected
identifier is exactly that string, with the canonical key taking
precedence when both keys are present. -/
theorem C1_resolution_policy :
    (∀ value, Product.tryFromImage value = projectSpecModel value) ∧
    (∀ value p s, Product.tryFromImage value = Except.ok p →
      resolveField value "Id" "id" = some (AttributeValue.S s) → p.id = s) ∧
    (∀ value p s, Product.tryFromImage value = Except.ok p →
      lookupKey value "Id" = some (AttributeValue.S s) → p.id = s) := by
  have main : ∀ value p s, Product.tryFromImage value = Except.ok p →
      resolveField value "Id" "id" = some (AttributeValue.S s) → p.id = s := by
    intro value p s h hres
    rw [tryFromImage_eq_spec] at h
    obtain ⟨⟨vI, hres2, hs⟩, _, _⟩ := projectSpec_ok_inv value p h
    rw [hres] at hres2
    injection hres2 with h2
    rw [← h2] at hs
    simp only [AttributeValue.as_s] at hs
    injection hs with h3
    exact h3.symm
  refine ⟨tryFromImage_eq_spec, main, ?_⟩
  intro value p s h hlook
  exact main value p s h (by unfold resolveField; rw [hlook])

/-- C1 witness: a concrete mapping carrying both Id and id projects the
canonical value. -/
theorem C1_resolution_policy_witness :
    ({ id := "101", name := "n", price := RustFloat.finite (mkRat 1 1) } : Product).id = "101" :=
  C1_resolution_policy.2.2
    [("Id", AttributeValue.S "101"), ("id", AttributeValue.S "other"),
     ("Name", AttributeValue.S "n"), ("Price", AttributeValue.N "1")]
    { id := "101", name := "n", price := RustFloat.finite (mkRat 1 1) } "101" (by decide) rfl

/-- C2 counterexample: in a mapping where the price field is absent under
both keys but the earlier name field carries a wrong tag, projection fails
with the name type-mismatch error, not with the missing-price error the
claim requires for the absent field. -/
theorem C2_field_order_counterexample :
    Product.tryFromImage [("Id", AttributeValue.S "x"), ("Name", AttributeValue.Bool true)] =
      Except.error (Error.InternalError "name is not a string") ∧
    Product.tryFromImage [("Id", AttributeValue.S "x"), ("Name", AttributeValue.Bool true)] ≠
      Except.error (Error.InternalError "Missing price in lambda") := by
  decide

/-- C2 amended: the three fields are resolved in the fixed order id, name,
price, and the first failing field determines the error.  For the first
failing field the claimed behavior holds exactly: with both of its keys
absent projection fails with the missing-field error naming it (not a
type-mismatch error), and with the resolved key present but wrongly tagged
projection fails with the type-mismatch error naming it (not a
missing-field error), without falling back to the alternate key. -/
theorem C2_error_discrimination :
    (∀ value, lookupKey value "Id" = none → lookupKey value "id" = none →
      Product.tryFromImage value = Except.error (Error.InternalError "Missing id in lambda")) ∧
    (∀ value vI, resolveField value "Id" "id" = some vI → vI.as_s = none →
      Product.tryFromImage value = Except.error (Error.InternalError "id is not a string")) ∧
    (∀ value vI sI, resolveField value "Id" "id" = some vI → vI.as_s = some sI →
      lookupKey value "Name" = none → lookupKey value "name" = none →
      Product.tryFromImage value = Except.error (Error.InternalError "Missing name in lambda")) ∧
    (∀ value vI sI vN, resolveField value "Id" "id" = some vI → vI.as_s = some sI →
      resolveField value "Name" "name" = some vN → vN.as_s = none →
      Product.tryFromImage value = Except.error (Error.InternalError "name is not a string")) ∧
    (∀ value vI sI vN sN, resolveField value "Id" "id" = some vI → vI.as_s = some sI →
      resolveField value "Name" "name" = some vN → vN.as_s = some sN →
      lookupKey value "Price" = none → lookupKey value "price" = none →
      Product.tryFromImage value = Except.error (Error.InternalError "Missing price in lambda")) ∧
    (∀ value vI sI vN sN vP, resolveField value "Id" "id" = some vI → vI.as_s = some sI →
      resolveField value "Name" "name" = some vN → vN.as_s = some sN →
      resolveField value "Price" "price" = some vP → vP.as_n = none →
      Product.tryFromImage value = Except.error (Error.InternalError "price is not a number")) := by
  refine ⟨?_, ?_, ?_, ?_, ?_, ?_⟩
  · intro value h1 h2
    rw [tryFromImage_eq_spec]
    unfold projectSpecModel
    have : resolveField value "Id" "id" = none := by unfold resolveField; rw [h1, h2]
    rw [this, okOrErr_none]
    rfl
  · intro value vI hres hs
    rw [tryFromImage_eq_spec]
    unfold projectSpecModel
    rw [hres, okOrErr_some]
    simp only [except_mbind_ok]
    rw [hs, okOrErr_none]
    rfl
  · intro value vI sI hres hs h1 h2
    rw [tryFromImage_eq_spec]
    unfold projectSpecModel
    rw [hres, okOrErr_some]
    simp only [except_mbind_ok]
    rw [hs, okOrErr_some]
    simp only [except_mbind_ok]
    have : resolveField value "Name" "name" = none := by unfold resolveField; rw [h1, h2]
    rw [this, okOrErr_none]
    rfl
  · intro value vI sI vN hresI hsI hresN hsN
    rw [tryFromImage_eq_spec]
    unfold projectSpecModel
    rw [hresI, okOrErr_some]
    simp only [except_mbind_ok]
    rw [hsI, okOrErr_some]
    simp only [except_mbind_ok]
    rw [hresN, okOrErr_some]
    simp only [except_mbind_ok]
    rw [hsN, okOrErr_none]
    rfl
  · intro value vI sI vN sN hresI hsI hresN hsN h1 h2
    rw [tryFromImage_eq_spec]
    unfold projectSpecModel
    rw [hresI, okOrErr_some]
    simp only [except_mbind_ok]
    rw [hsI, okOrErr_some]
    simp only [except_mbind_ok]
    rw [hresN, okOrErr_some]
    simp only [except_mbind_ok]
    rw [hsN, okOrErr_some]
    simp only [except_mbind_ok]
    have : resolveField value "Price" "price" = none := by unfold resolveField; rw [h1, h2]
    rw [this, okOrErr_none]
    rfl
  · intro value vI sI vN sN vP hresI hsI hresN hsN hresP hn
    rw [tryFromImage_eq_spec]
    unfold projectSpecModel
    rw [hresI, okOrErr_some]
    simp only [except_mbind_ok]
    rw [hsI, okOrErr_some]
    simp only [except_mbind_ok]
    rw [hresN, okOrErr_some]
    simp only [except_mbind_ok]
    rw [hsN, okOrErr_some]
    simp only [except_mbind_ok]
    rw [hresP, okOrErr_some]
    simp only [except_mbind_ok]
    rw [hn, okOrErr_none]
    rfl

/-- C2 witness: the amended price case at a concrete mapping with id and
name present and no price key in either casing. -/
theorem C2_error_discrimination_witness :
    Product.tryFromImage [("Id", AttributeValue.S "a"), ("Name", AttributeValue.S "b")] =
      Except.error (Error.InternalError "Missing price in lambda") :=
  C2_error_discrimination.2.2.2.2.1
    [("Id", AttributeValue.S "a"), ("Name", AttributeValue.S "b")]
    (AttributeValue.S "a") "a" (AttributeValue.S "b") "b" rfl rfl rfl rfl rfl rfl

theorem digit?_digitChar (d : Nat) (h : d < 10) : digit? (digitChar d) = some d := by
  interval_cases d <;> decide

theorem digit?_getD_digitChar (d : Nat) (h : d < 10) : (digit? (digitChar d)).getD 0 = d := by
  rw [digit?_digitChar d h]; rfl

theorem isDigitChar_digitChar (d : Nat) (h : d < 10) : isDigitChar (digitChar d) = true := by
  unfold isDigitChar; rw [digit?_digitChar d h]; rfl

theorem isDigitChar_ne (c c2 : Char) (h : isDigitChar c = true) (h2 : isDigitChar c2 = false) :
    c ≠ c2 := fun e => by rw [e, h2] at h; cases h

theorem mem_natToDigits_isDigit (m : Nat) : ∀ c ∈ natToDigits m, isDigitChar c = true := by
  intro c hc
  unfold natToDigits at hc
  by_cases hm : m = 0
  · rw [if_pos hm] at hc
    simp at hc
    rw [hc]
    decide
  · rw [if_neg hm] at hc
    rcases List.mem_map.mp hc with ⟨d, hd, rfl⟩
    exact isDigitChar_digitChar d (Nat.digits_lt_base (by norm_num) (List.mem_reverse.mp hd))

theorem natToDigits_ne_nil (m : Nat) : natToDigits m ≠ [] := by
  unfold natToDigits
  by_cases hm : m = 0
  · rw [if_pos hm]; simp
  · rw [if_neg hm]
    simp [Nat.digits_ne_nil_iff_ne_zero.mpr hm]

theorem digitsAcc_append (a : Nat) (l1 l2 : List Char) :
    digitsAcc a (l1 ++ l2) = digitsAcc (digitsAcc a l1) l2 := by
  induction l1 generalizing a with
  | nil => rfl
  | cons c cs ih => simp only [List.cons_append, digitsAcc]; exact ih _

theorem digitsAcc_replicate_zero (j : Nat) : digitsAcc 0 (List.replicate j '0') = 0 := by
  induction j with
  | zero => rfl
  | succ n ih => simpa [List.replicate_succ, digitsAcc] using ih

theorem digitsAcc_map (ds : List Nat) (h : ∀ d ∈ ds, d < 10) : ∀ a : Nat,
    digitsAcc a (ds.map digitChar) = ds.foldl (fun x d => x * 10 + d) a := by
  induction ds with
  | nil => intro a; rfl
  | cons d ds ih =>
    intro a
    simp only [List.map_cons, digitsAcc, List.foldl_cons]
    rw [digit?_getD_digitChar d (h d (List.mem_cons_self d ds))]
    exact ih (fun x hx => h x (List.mem_cons_of_mem d hx)) _

theorem foldl_mul_add (ds : List Nat) : ∀ a : Nat,
    ds.foldl (fun x d => x * 10 + d) a = a * 10 ^ ds.length + Nat.ofDigits 10 ds.reverse := by
  induction ds with
  | nil => intro a; simp [Nat.ofDigits]
  | cons d ds ih =>
    intro a
    simp only [List.foldl_cons, List.length_cons, List.reverse_cons]
    rw [ih, Nat.ofDigits_append, Nat.ofDigits_singleton, List.length_reverse]
    ring

theorem digitsAcc_natToDigits (m : Nat) : digitsAcc 0 (natToDigits m) = m := by
  by_cases hm : m = 0
  · rw [hm]; rfl
  · unfold natToDigits
    rw [if_neg hm]
    rw [digitsAcc_map _ (fun d hd => Nat.digits_lt_base (by norm_num) (List.mem_reverse.mp hd))]
    rw [foldl_mul_add, List.reverse_reverse, Nat.ofDigits_digits]
    simp

theorem natToDigits_length_le (k m : Nat) (hk : 0 < k) (hm : m < 10 ^ k) :
    (natToDigits m).length ≤ k := by
  by_cases h0 : m = 0
  · unfold natToDigits; rw [if_pos h0]; simpa using hk
  · unfold natToDigits
    rw [if_neg h0]
    rw [List.length_map, List.length_reverse]
    have h1 : 10 ^ (Nat.digits 10 m).length ≤ 10 * m :=
      Nat.base_pow_length_digits_le 10 m (by norm_num) h0
    have h2 : 10 * m < 10 ^ (k + 1) := by
      have hstep : 10 * m < 10 * 10 ^ k := by omega
      calc 10 * m < 10 * 10 ^ k := hstep
        _ = 10 ^ (k + 1) := by ring
    have h3 : 10 ^ (Nat.digits 10 m).length < 10 ^ (k + 1) := Nat.lt_of_le_of_lt h1 h2
    have := (Nat.pow_lt_pow_iff_right (by norm_num : 1 < 10)).mp h3
    omega

theorem mem_padDigits_isDigit (k m : Nat) : ∀ c ∈ padDigits k m, isDigitChar c = true := by
  intro c hc
  unfold padDigits at hc
  rcases List.mem_append.mp hc with h | h
  · rw [List.eq_of_mem_replicate h]; decide
  · exact mem_natToDigits_isDigit m c h

theorem padDigits_length (k m : Nat) (hk : 0 < k) (hm : m < 10 ^ k) :
    (padDigits k m).length = k := by
  unfold padDigits
  rw [List.length_append, List.length_replicate]
  have := natToDigits_length_le k m hk hm
  omega

theorem digitsAcc_padDigits (k m : Nat) : digitsAcc 0 (padDigits k m) = m := by
  unfold padDigits
  rw [digitsAcc_append, digitsAcc_replicate_zero, digitsAcc_natToDigits]

theorem takeWhile_append_stop (p : Char → Bool) (l : List Char) (c : Char) (r : List Char)
    (hl : ∀ x ∈ l, p x = true) (hc : p c = false) :
    (l ++ c :: r).takeWhile p = l ∧ (l ++ c :: r).dropWhile p = c :: r := by
  induction l with
  | nil => simp [List.takeWhile, List.dropWhile, hc]
  | cons x xs ih =>
    have hx := hl x (List.mem_cons_self x xs)
    rcases ih (fun y hy => hl y (List.mem_cons_of_mem x hy)) with ⟨h1, h2⟩
    simp [List.takeWhile, List.dropWhile, hx, h1, h2]

theorem takeWhile_all (p : Char → Bool) (l : List Char) (h : ∀ x ∈ l, p x = true) :
    l.takeWhile p = l ∧ l.dropWhile p = [] := by
  induction l with
  | nil => simp [List.takeWhile, List.dropWhile]
  | cons x xs ih =>
    have hx := h x (List.mem_cons_self x xs)
    rcases ih (fun y hy => h y (List.mem_cons_of_mem x hy)) with ⟨h1, h2⟩
    simp [List.takeWhile, List.dropWhile, hx, h1, h2]

theorem parseUnsigned_digits (ds fs : List Char)
    (hds : ∀ c ∈ ds, isDigitChar c = true) (hfs : ∀ c ∈ fs, isDigitChar c = true)
    (hlen : 0 < ds.length + fs.length) :
    parseUnsigned (ds ++ '.' :: fs) =
      some (mkRat ((digitsAcc 0 ds * 10 ^ fs.length + digitsAcc 0 fs : Nat) : Int)
        (10 ^ fs.length)) := by
  obtain ⟨ht, hd⟩ := takeWhile_append_stop isDigitChar ds '.' fs hds (by decide)
  obtain ⟨ht2, hd2⟩ := takeWhile_all isDigitChar fs hfs
  have ha : fracPart ('.' :: fs) = fs.takeWhile isDigitChar := rfl
  have hb : restAfterFrac ('.' :: fs) = fs.dropWhile isDigitChar := rfl
  simp only [parseUnsigned]
  rw [ht, hd, ha, ht2, hb, hd2]
  rw [if_neg (by omega)]
  rfl

theorem parseF64_mk_cons (c : Char) (rest : List Char) :
    parseF64 (String.mk (c :: rest)) =
      (if c = '+' then parseUnsignedF rest
       else if c = '-' then (parseUnsignedF rest).map RustFloat.neg
       else parseUnsignedF (c :: rest)) := rfl

theorem parseNonFinite_digit (c : Char) (cs : List Char) (h : isDigitChar c = true) :
    parseNonFinite (c :: cs) = none := by
  have h1 : (c == 'i') = false := beq_eq_false_iff_ne.mpr (isDigitChar_ne c 'i' h (by decide))
  have h2 : (c == 'I') = false := beq_eq_false_iff_ne.mpr (isDigitChar_ne c 'I' h (by decide))
  have h3 : (c == 'n') = false := beq_eq_false_iff_ne.mpr (isDigitChar_ne c 'n' h (by decide))
  have h4 : (c == 'N') = false := beq_eq_false_iff_ne.mpr (isDigitChar_ne c 'N' h (by decide))
  simp [parseNonFinite, matchesKeyword, h1, h2, h3, h4]

theorem parseUnsignedF_of_not_keyword (cs : List Char) (h : parseNonFinite cs = none) :
    parseUnsignedF cs = (parseUnsigned cs).map rustFloatOfRat := by
  unfold parseUnsignedF
  rw [h]

theorem parseF64_digits (ds fs : List Char)
    (hds : ∀ c ∈ ds, isDigitChar c = true) (hfs : ∀ c ∈ fs, isDigitChar c = true)
    (hne : ds ≠ []) (hlen : 0 < ds.length + fs.length) :
    parseF64 (String.mk (ds ++ '.' :: fs)) =
      some (rustFloatOfRat (mkRat ((digitsAcc 0 ds * 10 ^ fs.length + digitsAcc 0 fs : Nat) : Int)
        (10 ^ fs.length))) := by
  obtain ⟨c, cs, rfl⟩ := List.exists_cons_of_ne_nil hne
  rw [List.cons_append, parseF64_mk_cons]
  have hcdig : isDigitChar c = true := hds c (List.mem_cons_self c cs)
  rw [if_neg (isDigitChar_ne c '+' hcdig (by decide)),
    if_neg (isDigitChar_ne c '-' hcdig (by decide))]
  rw [parseUnsignedF_of_not_keyword _ (parseNonFinite_digit c _ hcdig)]
  rw [← List.cons_append]
  rw [parseUnsigned_digits (c :: cs) fs hds hfs hlen]
  rfl

theorem parseF64_digits_neg (ds fs : List Char)
    (hds : ∀ c ∈ ds, isDigitChar c = true) (hfs : ∀ c ∈ fs, isDigitChar c = true)
    (hne : ds ≠ []) (hlen : 0 < ds.length + fs.length) :
    parseF64 (String.mk ('-' :: (ds ++ '.' :: fs))) =
      some (RustFloat.neg (rustFloatOfRat
        (mkRat ((digitsAcc 0 ds * 10 ^ fs.length + digitsAcc 0 fs : Nat) : Int)
          (10 ^ fs.length)))) := by
  rw [parseF64_mk_cons]
  rw [if_neg (by decide), if_pos rfl]
  obtain ⟨c, cs, rfl⟩ := List.exists_cons_of_ne_nil hne
  have hcdig : isDigitChar c = true := hds c (List.mem_cons_self c cs)
  rw [List.cons_append]
  rw [parseUnsignedF_of_not_keyword _ (parseNonFinite_digit c _ hcdig)]
  rw [← List.cons_append]
  rw [parseUnsigned_digits (c :: cs) fs hds hfs hlen]
  rfl

theorem mkRat_scaled (q : ℚ) (hq : q.den ∣ 10 ^ q.den) :
    mkRat ((q.num.natAbs * (10 ^ q.den / q.den) : Nat) : Int) (10 ^ q.den) =
      (q.num.natAbs : ℚ) / (q.den : ℚ) := by
  have hdc : q.den * (10 ^ q.den / q.den) = 10 ^ q.den := Nat.mul_div_cancel' hq
  have hpow : 0 < (10 : ℕ) ^ q.den := by positivity
  have hcpos : 0 < 10 ^ q.den / q.den := by
    rcases Nat.eq_zero_or_pos (10 ^ q.den / q.den) with h0 | h0
    · rw [h0, Nat.mul_zero] at hdc; omega
    · exact h0
  have hc0 : ((10 ^ q.den / q.den : ℕ) : ℚ) ≠ 0 := by
    exact_mod_cast Nat.pos_iff_ne_zero.mp hcpos
  have e1 : (((q.num.natAbs * (10 ^ q.den / q.den) : ℕ) : ℤ) : ℚ)
      = (q.num.natAbs : ℚ) * ((10 ^ q.den / q.den : ℕ) : ℚ) := by
    rw [Int.cast_natCast, Nat.cast_mul]
  have e2 : ((10 ^ q.den : ℕ) : ℚ) = (q.den : ℚ) * ((10 ^ q.den / q.den : ℕ) : ℚ) := by
    exact_mod_cast hdc.symm
  rw [Rat.mkRat_eq_div, e1, e2]
  exact mul_div_mul_right _ _ hc0

theorem natAbs_div_den_of_nonneg (q : ℚ) (h : 0 ≤ q.num) :
    (q.num.natAbs : ℚ) / (q.den : ℚ) = q := by
  have h2 : (q.num.natAbs : ℤ) = q.num := Int.natAbs_of_nonneg h
  have e : ((q.num.natAbs : ℤ) : ℚ) = ((q.num.natAbs : ℕ) : ℚ) := Int.cast_natCast _
  rw [← e, h2]
  exact Rat.num_div_den q

theorem natAbs_div_den_of_neg (q : ℚ) (h : q.num < 0) :
    -((q.num.natAbs : ℚ) / (q.den : ℚ)) = q := by
  have h2 : (q.num.natAbs : ℤ) = -q.num := Int.ofNat_natAbs_of_nonpos (le_of_lt h)
  have e : ((q.num.natAbs : ℤ) : ℚ) = ((q.num.natAbs : ℕ) : ℚ) := Int.cast_natCast _
  rw [← e, h2, Int.cast_neg, neg_div, neg_neg]
  exact Rat.num_div_den q

theorem rustFloatOfRat_finite (v : ℚ) (h : InF64Range v) :
    rustFloatOfRat v = RustFloat.finite v := by
  unfold InF64Range at h
  unfold rustFloatOfRat
  rw [if_neg (by omega), if_neg (by omega)]

theorem inF64Range_neg (q : ℚ) (h : InF64Range q) : InF64Range (-q) := by
  unfold InF64Range at h ⊢
  rw [Rat.neg_num, Rat.neg_den]
  omega

theorem parseF64_fmtF64 (q : ℚ) (h : DecimalExact q) (hr : InF64Range q) :
    parseF64 (fmtF64 (RustFloat.finite q)) = some (RustFloat.finite q) := by
  have hq : q.den ∣ 10 ^ q.den := h
  have hkpos : 0 < q.den := q.den_pos
  have hpow : 0 < (10 : ℕ) ^ q.den := by positivity
  have hfp_lt : q.num.natAbs * (10 ^ q.den / q.den) % 10 ^ q.den < 10 ^ q.den :=
    Nat.mod_lt _ hpow
  have hds := mem_natToDigits_isDigit (q.num.natAbs * (10 ^ q.den / q.den) / 10 ^ q.den)
  have hfs := mem_padDigits_isDigit q.den (q.num.natAbs * (10 ^ q.den / q.den) % 10 ^ q.den)
  have hne := natToDigits_ne_nil (q.num.natAbs * (10 ^ q.den / q.den) / 10 ^ q.den)
  have hlen : 0 < (natToDigits (q.num.natAbs * (10 ^ q.den / q.den) / 10 ^ q.den)).length
      + (padDigits q.den (q.num.natAbs * (10 ^ q.den / q.den) % 10 ^ q.den)).length :=
    Nat.add_pos_left (List.length_pos.mpr hne) _
  have hplen := padDigits_length q.den (q.num.natAbs * (10 ^ q.den / q.den) % 10 ^ q.den)
    hkpos hfp_lt
  have hdm : q.num.natAbs * (10 ^ q.den / q.den) / 10 ^ q.den * 10 ^ q.den
      + q.num.natAbs * (10 ^ q.den / q.den) % 10 ^ q.den
      = q.num.natAbs * (10 ^ q.den / q.den) := by
    rw [Nat.mul_comm]
    exact Nat.div_add_mod _ _
  show parseF64 (fmtDec q) = some (RustFloat.finite q)
  unfold fmtDec
  rw [if_pos hq]
  rcases lt_or_ge q.num 0 with hneg | hpos
  · rw [if_pos hneg, List.singleton_append]
    refine Eq.trans (parseF64_digits_neg _ _ hds hfs hne hlen) ?_
    rw [digitsAcc_natToDigits, digitsAcc_padDigits, hplen, hdm]
    rw [mkRat_scaled q hq]
    have hmq : (q.num.natAbs : ℚ) / (q.den : ℚ) = -q := by
      have := natAbs_div_den_of_neg q hneg
      linarith
    rw [hmq, rustFloatOfRat_finite (-q) (inF64Range_neg q hr)]
    simp [RustFloat.neg]
  · rw [if_neg (not_lt.mpr hpos), List.nil_append]
    refine Eq.trans (parseF64_digits _ _ hds hfs hne hlen) ?_
    rw [digitsAcc_natToDigits, digitsAcc_padDigits, hplen, hdm]
    rw [mkRat_scaled q hq]
    rw [natAbs_div_den_of_nonneg q hpos]
    rw [rustFloatOfRat_finite q hr]

/-- C9: a product whose price models a finite f64 value (a rational with a
finite decimal expansion strictly inside the double range, as every finite
f64 value is) survives the round trip: encoding it into an attribute
mapping under canonical keys, the identifier and name string-tagged and
the price number-tagged with the decimal string the entity encoder
produces, then projecting the mapping back, returns an equal product with
an exactly equal price.  The same holds for the mapping the store encoder
to_dynamodb actually emits, which uses the lowercase keys and is read back
through the alternate-key fallback. -/
theorem C9_roundtrip (p : Product) (h : FiniteDecimalPrice p.price) :
    Product.tryFromImage
      [("Id", AttributeValue.S p.id), ("Name", AttributeValue.S p.name),
       ("Price", AttributeValue.N (fmtF64 p.price))] = Except.ok p ∧
    Product.tryFromImage (Product.to_dynamodb p) = Except.ok p := by
  obtain ⟨q, hp, hde, hr⟩ : ∃ q, p.price = RustFloat.finite q ∧ DecimalExact q ∧ InF64Range q := by
    cases hpp : p.price with
    | finite q =>
      rw [hpp] at h
      simp only [FiniteDecimalPrice] at h
      exact ⟨q, rfl, h.1, h.2⟩
    | posInf => rw [hpp] at h; simp [FiniteDecimalPrice] at h
    | negInf => rw [hpp] at h; simp [FiniteDecimalPrice] at h
    | nan => rw [hpp] at h; simp [FiniteDecimalPrice] at h
  constructor
  · rw [tryFromImage_eq_spec]
    unfold projectSpecModel
    have r1 : resolveField
        [("Id", AttributeValue.S p.id), ("Name", AttributeValue.S p.name),
         ("Price", AttributeValue.N (fmtF64 p.price))] "Id" "id" =
        some (AttributeValue.S p.id) := rfl
    have r2 : resolveField
        [("Id", AttributeValue.S p.id), ("Name", AttributeValue.S p.name),
         ("Price", AttributeValue.N (fmtF64 p.price))] "Name" "name" =
        some (AttributeValue.S p.name) := rfl
    have r3 : resolveField
        [("Id", AttributeValue.S p.id), ("Name", AttributeValue.S p.name),
         ("Price", AttributeValue.N (fmtF64 p.price))] "Price" "price" =
        some (AttributeValue.N (fmtF64 p.price)) := rfl
    rw [r1, okOrErr_some]
    simp only [except_mbind_ok, AttributeValue.as_s]
    rw [okOrErr_some]
    simp only [except_mbind_ok]
    rw [r2, okOrErr_some]
    simp only [except_mbind_ok, AttributeValue.as_s]
    rw [okOrErr_some]
    simp only [except_mbind_ok]
    rw [r3, okOrErr_some]
    simp only [except_mbind_ok, AttributeValue.as_n]
    rw [hp, parseF64_fmtF64 q hde hr, okOrErr_some]
    simp only [except_mbind_ok]
    rw [← hp]
  · rw [tryFromImage_eq_spec]
    unfold projectSpecModel Product.to_dynamodb
    have r1 : resolveField
        [("id", AttributeValue.S p.id), ("name", AttributeValue.S p.name),
         ("price", AttributeValue.N (fmtF64 p.price))] "Id" "id" =
        some (AttributeValue.S p.id) := rfl
    have r2 : resolveField
        [("id", AttributeValue.S p.id), ("name", AttributeValue.S p.name),
         ("price", AttributeValue.N (fmtF64 p.price))] "Name" "name" =
        some (AttributeValue.S p.name) := rfl
    have r3 : resolveField
        [("id", AttributeValue.S p.id), ("name", AttributeValue.S p.name),
         ("price", AttributeValue.N (fmtF64 p.price))] "Price" "price" =
        some (AttributeValue.N (fmtF64 p.price)) := rfl
    rw [r1, okOrErr_some]
    simp only [except_mbind_ok, AttributeValue.as_s]
    rw [okOrErr_some]
    simp only [except_mbind_ok]
    rw [r2, okOrErr_some]
    simp only [except_mbind_ok, AttributeValue.as_s]
    rw [okOrErr_some]
    simp only [except_mbind_ok]
    rw [r3, okOrErr_some]
    simp only [except_mbind_ok, AttributeValue.as_n]
    rw [hp, parseF64_fmtF64 q hde hr, okOrErr_some]
    simp only [except_mbind_ok]
    rw [← hp]

/-- C9 witness: the round trip at a concrete product with price 10.5. -/
theorem C9_roundtrip_witness :
    FiniteDecimalPrice (RustFloat.finite (mkRat 21 2)) ∧
    (Product.tryFromImage
      [("Id", AttributeValue.S "101"), ("Name", AttributeValue.S "new-item"),
       ("Price", AttributeValue.N (fmtF64 (RustFloat.finite (mkRat 21 2))))] =
        Except.ok { id := "101", name := "new-item", price := RustFloat.finite (mkRat 21 2) } ∧
     Product.tryFromImage (Product.to_dynamodb
        { id := "101", name := "new-item", price := RustFloat.finite (mkRat 21 2) }) =
        Except.ok { id := "101", name := "new-item", price := RustFloat.finite (mkRat 21 2) }) :=
  ⟨by decide, C9_roundtrip
    { id := "101", name := "new-item", price := RustFloat.finite (mkRat 21 2) } (by decide)⟩

end SRDemo
